import Mathlib

/-!
Verification of gb-go-url-shortener.

A shallow embedding of the URL shortener service.

* `cmd/urlshortener/main.go`: the choice of the storage backend from the DSN.
* `api/openapi/openapi.go`: the generated chi server wrapper, the route table,
  the embedded swagger specification and the synthetic file system.
* the URL store (code generator, memory backend, persistent backend), whose
  packages `app`, `db/memstore` and `db/pgstore` are imported by `main.go`.

Go strings are embedded as Lean `String`s (valid UTF-8 text); `len` is the byte
length `String.utf8ByteSize`.  Go functions with side effects become functions
that pass the state they touch explicitly.
-/

set_option autoImplicit false

namespace urlshortener

/-! ## cmd/urlshortener/main.go -/

/-- The part of `config.Config` that `main` reads. -/
structure Config where
  DSN : String
deriving DecidableEq, Repr

/-- Go's `strings.HasPrefix(s, prefix)`: `s` begins with `prefix`. On UTF-8
text with a prefix made of whole characters, the byte-wise test of the standard
library is the character-wise test. -/
def HasPrefix (s pre : String) : Bool :=
  pre.data.isPrefixOf s.data

/-- A call of a store constructor made by `main`. -/
inductive StoreCall where
  | NewMemStore
  | NewPgStore (dsn : String)
deriving DecidableEq, Repr

/-- How the start-up part of `main` ends: it goes on to `app.NewApp(store)`
with a store, or `log.Fatal*` prints a message and exits the process. -/
inductive Startup (Store : Type) where
  | running (store : Store)
  | fatal (msg : String)
deriving DecidableEq, Repr

/-- The result of the start-up part of `main`: the store constructors it called,
in order, and how it ended. -/
structure MainResult (Store : Type) where
  calls : List StoreCall
  outcome : Startup Store
deriving DecidableEq, Repr

/-- Lines 36-47 of `main`: `switch` on `conf.DSN`. The two constructors of the
packages `memstore` and `pgstore` are parameters; `NewPgStore` may fail with
an error, whose text `log.Fatalln` prints followed by a newline. -/
def main {Store : Type} (NewMemStore : Store)
    (NewPgStore : String → Except String Store) (conf : Config) : MainResult Store :=
  if conf.DSN = "memory" then
    { calls := [StoreCall.NewMemStore], outcome := Startup.running NewMemStore }
  else if HasPrefix conf.DSN "postgres://" then
    match NewPgStore conf.DSN with
    | Except.ok store =>
      { calls := [StoreCall.NewPgStore conf.DSN], outcome := Startup.running store }
    | Except.error err =>
      { calls := [StoreCall.NewPgStore conf.DSN], outcome := Startup.fatal (err ++ "\n") }
  else
    { calls := [],
      outcome := Startup.fatal ("unknown store value in config: \"" ++ conf.DSN ++ "\"\n") }

end urlshortener

namespace openapi

/-! ## api/openapi/openapi.go: the synthetic file system -/

/-- A Go `map[string]V`, as the list of its key/value pairs, each key once. -/
abbrev GoMap (V : Type) := List (String × V)

/-- Go's `make(map[string]V)`. -/
def GoMap.make {V : Type} : GoMap V := []

/-- Go's `m[k] = v`. -/
def GoMap.set {V : Type} (m : GoMap V) (k : String) (v : V) : GoMap V :=
  (k, v) :: m.filter (fun e => e.1 ≠ k)

/-- Go's `v, ok := m[k]`. -/
def GoMap.get? {V : Type} (m : GoMap V) (k : String) : Option V :=
  (m.find? (fun e => e.1 = k)).map Prod.snd

/-- Go's `len(s)` of a string: its number of bytes. -/
def len (s : String) : Nat := s.utf8ByteSize

/-- `PathToRawSpec`, with the package variable `rawSpec` as a parameter. -/
def PathToRawSpec {Getter : Type} (rawSpec : Getter) (pathToFile : String) : GoMap Getter :=
  let res : GoMap Getter := GoMap.make
  if len pathToFile > 0 then
    res.set pathToFile rawSpec
  else
    res

/-! ## api/openapi/openapi.go: the embedded swagger specification -/

/-- The package variable `swaggerSpec`: base64 encoded, gzipped, json marshaled
Swagger object. -/
def swaggerSpec : List String := [
  "H4sIAAAAAAAC/8RUTW/TQBD9K6OBo5s4beHgExSkqFIPKKEn2sPGniTb2rtmdhyIovx3NOs4H00qFSji",
  "5qx33jy/j6ww91XtHTkJmK0w5HOqTHwc0feGgtyObvRXzb4mFkvxnWc7s86Um5dTz5URzLDhEhOUZU2Y",
  "YRC2bobr9fbETx4oF1wnOKJQexfoJHqYe5YXQScYxEj4YxpjnT4m4JpqRIVlytu3W2Dr5P3lDto6oRlx",
  "5PFizsc89Mi6qdfZ3DsxuegjVcaWcZBq484Xvnz0iw9L4wr62eNGtxYUcra1WO8ww69zG8AGkDnBVO2B",
  "mr2ugKlnGBI9XrGxLkDuGw4Ed3hl8kdyBXymBZW+rsgJ/LAyh6HvwY0ewuAO9RuslEr5dnQDY/1UcsTw",
  "8cs1JrggDi2BQS/tpcrL1+RMbTHDi17aG2CCtZF51LIf5fYhfqKKbpT9dYEZfmIyQuNOyQS5jeCVL5ad",
  "NuTioKnr0uZxtP8QdHmXXX16yzTFDN/0d+Hub5Ld34t1FF53WKYCM+GG4kEbzcj2PB284uZd5uPqQ/di",
  "gqDhEvKoQ6FCXqapwh7enJgCNtLonXen7mg0WSMQiBfEQMyeY/hCU1WGl1u9oV2szk7ZV9B1G1oPxMwC",
  "Zt9w3N3Ce0Xpx+L1V3H4rOFyrRxmdMLWIUnbM00Bm4qEWCFXJwWIPDzDjESsmwFvighhg2H1rsYJE3Sm",
  "om7yrG3boZ/JnjdPe3h/5HX6al63H3zK5SbPKYRpU8JWpdboy2MTndfqNq74K5uHtBEPzMQ3slU07Lsb",
  "+bbOvsTT7u+xzchv2NotVwv+oZcX6cWxWP9B+04nEH9QLJgsd717rmXr7fnT1bG52g7jim1T9vE2Yu7g",
  "1slTjGE39kw0Oog2yffrXwEAAP///VL4ECsIAAA="]

/-- Go's `strings.Join(elems, sep)`. -/
def Join (elems : List String) (sep : String) : String := sep.intercalate elems

/-- The bytes of a Go string: `[]byte(s)`, the UTF-8 encoding of the text. -/
def bytes (s : String) : List Nat :=
  s.data.flatMap (fun c => (String.utf8EncodeChar c).map UInt8.toNat)

/-! ### encoding/base64, `StdEncoding` (padding '=', not strict) -/

/-- The alphabet of `base64.StdEncoding`. -/
def encodeStd : String := "ABCDEFGHIJKLMNOPQRSTUVWXYZabcdefghijklmnopqrstuvwxyz0123456789+/"

/-- The decode map of `base64.StdEncoding`: the position of the byte in the
alphabet, `0xff` for a byte outside of it. -/
def decodeMap (b : Nat) : Nat :=
  if 65 ≤ b ∧ b ≤ 90 then b - 65
  else if 97 ≤ b ∧ b ≤ 122 then b - 97 + 26
  else if 48 ≤ b ∧ b ≤ 57 then b - 48 + 52
  else if b = 43 then 62
  else if b = 47 then 63
  else 0xff

/-- The loop `for si < len(src) && (src[si] == '\n' || src[si] == '\r') { si++ }`
of `decodeQuantum`, on the input from `si` on. -/
def skipNewlines : List Nat → Nat → List Nat × Nat
  | [], si => ([], si)
  | b :: rest, si => if b = 10 ∨ b = 13 then skipNewlines rest (si + 1) else (b :: rest, si)

/-- The tail of `decodeQuantum`: the 6-bit values of `dbuf` (missing ones are 0)
packed into 3 bytes, of which `dlen - 1` are written. -/
def assemble (dbuf : List Nat) (dlen : Nat) : List Nat :=
  let val := dbuf.getD 0 0 * 2 ^ 18 + dbuf.getD 1 0 * 2 ^ 12 + dbuf.getD 2 0 * 2 ^ 6
    + dbuf.getD 3 0
  ([val / 2 ^ 16 % 256, val / 2 ^ 8 % 256, val % 256]).take (dlen - 1)

/-- `Encoding.Decode` of `StdEncoding`: the loop over `decodeQuantum`, on the
input from offset `si` on, with `j` values of the current quantum already in
`dbuf`; `total` is `len(src)`. Returns the bytes written and the offset of the
`CorruptInputError`, if any. -/
def decode (total : Nat) : List Nat → Nat → Nat → List Nat → List Nat × Option Nat
  | [], si, j, _ => if j = 0 then ([], none) else ([], some (si - j))
  | c :: rest, si0, j, dbuf =>
    let si := si0 + 1
    let out := decodeMap c
    if out ≠ 0xff then
      if j = 3 then
        let r := decode total rest si 0 []
        (assemble (dbuf ++ [out]) 4 ++ r.1, r.2)
      else decode total rest si (j + 1) (dbuf ++ [out])
    else if c = 10 ∨ c = 13 then decode total rest si j dbuf
    else if c ≠ 61 then ([], some (si - 1))
    else if j < 2 then ([], some (si - 1))
    else if j = 2 then
      match skipNewlines rest si with
      | ([], _) => ([], some total)
      | (c2 :: rest2, si2) =>
        if c2 ≠ 61 then ([], some (si2 - 1))
        else
          match skipNewlines rest2 (si2 + 1) with
          | ([], _) => (assemble dbuf j, none)
          | (_ :: _, si3) => (assemble dbuf j, some si3)
    else
      match skipNewlines rest si with
      | ([], _) => (assemble dbuf j, none)
      | (_ :: _, si3) => (assemble dbuf j, some si3)

/-- Go's `base64.StdEncoding.DecodeString(s)`: the decoded bytes and the error
(the offset of a `CorruptInputError`), `none` for `nil`. -/
def DecodeString (s : String) : List Nat × Option Nat :=
  decode (bytes s).length (bytes s) 0 0 []

/-- The text of `CorruptInputError(offset).Error()`. -/
def CorruptInputError (offset : Nat) : String :=
  "illegal base64 data at input byte " ++ toString offset

/-- Well-formed standard padded base64: a multiple of 4 bytes, all of the
alphabet but for at most two trailing padding bytes '='. -/
def isPaddedBase64 (src : List Nat) : Bool :=
  let body := if src.getLast? = some 61 then src.dropLast else src
  let body := if body.getLast? = some 61 then body.dropLast else body
  decide (src.length % 4 = 0) && body.all (fun b => decodeMap b ≠ 0xff)

/-- `decodeSpec`, with the two steps of `compress/gzip` it uses as parameters:
`gzip.NewReader` on the bytes and `buf.ReadFrom(zr)`. -/
def decodeSpec {Reader : Type} (NewReader : List Nat → Except String Reader)
    (ReadFrom : Reader → Except String (List Nat)) : Except String (List Nat) :=
  match DecodeString (Join swaggerSpec "") with
  | (_, some err) => Except.error ("error base64 decoding spec: " ++ CorruptInputError err)
  | (zipped, none) =>
    match NewReader zipped with
    | Except.error err => Except.error ("error decompressing spec: " ++ err)
    | Except.ok zr =>
      match ReadFrom zr with
      | Except.error err => Except.error ("error decompressing spec: " ++ err)
      | Except.ok buf => Except.ok buf

/-! ## api/openapi/openapi.go: the server wrapper -/

/-- The part of a `context.Context` the wrapper depends on: the URL parameters
of chi's route context, keys with their values in the order they were added. -/
structure Context where
  urlParams : List (String × String)
deriving DecidableEq, Repr

/-- An `*http.Request`. -/
structure Request where
  Method : String
  Path : String
  ctx : Context
deriving DecidableEq, Repr

/-- Go's `r.Context()`. -/
def Request.Context (r : Request) : openapi.Context := r.ctx

/-- Go's `r.WithContext(ctx)`: a copy of the request with the context changed. -/
def Request.WithContext (r : Request) (ctx : openapi.Context) : Request := { r with ctx := ctx }

/-- Go's `chi.URLParam(r, key)`: the value of the last parameter named `key`
in the route context, the empty string when there is none. -/
def URLParam (r : Request) (key : String) : String :=
  ((r.Context.urlParams.reverse.find? (fun kv => kv.1 = key)).map Prod.snd).getD ""

/-- An `http.ResponseWriter`: the header map, the status code once written, and
the body written so far. -/
structure ResponseWriter where
  header : List (String × String)
  status : Option Nat
  body : String
deriving DecidableEq, Repr

/-- Go's `w.WriteHeader(code)`: only the first status code counts. -/
def ResponseWriter.WriteHeader (w : ResponseWriter) (code : Nat) : ResponseWriter :=
  match w.status with
  | none => { w with status := some code }
  | some _ => w

/-- Go's `w.Write(data)`: writes the status 200 if none was written yet. -/
def ResponseWriter.Write (w : ResponseWriter) (data : String) : ResponseWriter :=
  let w := w.WriteHeader 200
  { w with body := w.body ++ data }

/-- Go's `h.Set(key, value)` on the header map. -/
def ResponseWriter.SetHeader (w : ResponseWriter) (key value : String) : ResponseWriter :=
  { w with header := (key, value) :: w.header.filter (fun kv => kv.1 ≠ key) }

/-- Go's `h.Del(key)` on the header map. -/
def ResponseWriter.DelHeader (w : ResponseWriter) (key : String) : ResponseWriter :=
  { w with header := w.header.filter (fun kv => kv.1 ≠ key) }

/-- Go's `http.StatusBadRequest`. -/
def StatusBadRequest : Nat := 400

/-- Go's `http.Error(w, error, code)`: plain-text headers, the status code, then
the message and a newline. -/
def Error (w : ResponseWriter) (error : String) (code : Nat) : ResponseWriter :=
  let w := w.DelHeader "Content-Length"
  let w := w.SetHeader "Content-Type" "text/plain; charset=utf-8"
  let w := w.SetHeader "X-Content-Type-Options" "nosniff"
  let w := w.WriteHeader code
  w.Write (error ++ "\n")

/-- An `http.HandlerFunc`: it acts on the response writer and on the rest of
the program state `σ`. -/
abbrev HandlerFunc (σ : Type) := ResponseWriter → Request → σ → ResponseWriter × σ

/-- `MiddlewareFunc`: building the wrapped handler may itself act on the state. -/
abbrev MiddlewareFunc (σ : Type) := HandlerFunc σ → σ → HandlerFunc σ × σ

/-- `ServerInterface` represents all server handlers. -/
structure ServerInterface (σ : Type) where
  CreateShortURL : ResponseWriter → Request → σ → ResponseWriter × σ
  GetStats : ResponseWriter → Request → String → σ → ResponseWriter × σ
  RedirectURL : ResponseWriter → Request → String → σ → ResponseWriter × σ

/-- `ServerInterfaceWrapper` converts contexts to parameters. -/
structure ServerInterfaceWrapper (σ : Type) where
  Handler : ServerInterface σ
  HandlerMiddlewares : List (MiddlewareFunc σ)

/-- The type of `runtime.BindStyledParameter(style, explode, paramName, value, dest)`
for a string destination: the bound value, or an error with its text. -/
abbrev BindFunc := String → Bool → String → String → Except String String

/-- The loop `for _, middleware := range siw.HandlerMiddlewares { handler = middleware(handler) }`. -/
def applyMiddlewares {σ : Type} (middlewares : List (MiddlewareFunc σ))
    (handler : HandlerFunc σ) (env : σ) : HandlerFunc σ × σ :=
  middlewares.foldl (fun acc middleware => middleware acc.1 acc.2) (handler, env)

/-- `ServerInterfaceWrapper.CreateShortURL` operation middleware. -/
def ServerInterfaceWrapper.CreateShortURL {σ : Type} (siw : ServerInterfaceWrapper σ) :
    HandlerFunc σ := fun w r env =>
  let ctx := r.Context
  let handler : HandlerFunc σ := fun w r env => siw.Handler.CreateShortURL w r env
  let wrapped := applyMiddlewares siw.HandlerMiddlewares handler env
  wrapped.1 w (r.WithContext ctx) wrapped.2

/-- `ServerInterfaceWrapper.GetStats` operation middleware. -/
def ServerInterfaceWrapper.GetStats {σ : Type} (BindStyledParameter : BindFunc)
    (siw : ServerInterfaceWrapper σ) : HandlerFunc σ := fun w r env =>
  let ctx := r.Context
  match BindStyledParameter "simple" false "short-url" (URLParam r "short-url") with
  | Except.error err =>
    (Error w ("Invalid format for parameter short-url: " ++ err) StatusBadRequest, env)
  | Except.ok shortUrl =>
    let handler : HandlerFunc σ := fun w r env => siw.Handler.GetStats w r shortUrl env
    let wrapped := applyMiddlewares siw.HandlerMiddlewares handler env
    wrapped.1 w (r.WithContext ctx) wrapped.2

/-- `ServerInterfaceWrapper.RedirectURL` operation middleware. -/
def ServerInterfaceWrapper.RedirectURL {σ : Type} (BindStyledParameter : BindFunc)
    (siw : ServerInterfaceWrapper σ) : HandlerFunc σ := fun w r env =>
  let ctx := r.Context
  match BindStyledParameter "simple" false "short-url" (URLParam r "short-url") with
  | Except.error err =>
    (Error w ("Invalid format for parameter short-url: " ++ err) StatusBadRequest, env)
  | Except.ok shortUrl =>
    let handler : HandlerFunc σ := fun w r env => siw.Handler.RedirectURL w r shortUrl env
    let wrapped := applyMiddlewares siw.HandlerMiddlewares handler env
    wrapped.1 w (r.WithContext ctx) wrapped.2

/-! ### Routing (go-chi/chi) -/

/-- A route registered on a chi router. -/
structure Route (σ : Type) where
  method : String
  pattern : String
  handler : HandlerFunc σ

/-- The chi routers allocated so far: a `chi.Router` value is a reference to a
mux made by `chi.NewRouter()` (a number below `next`), and `routes` gives the
endpoints of its routing tree, the latest registered last. -/
structure Routers (σ : Type) where
  routes : Nat → List (Route σ)
  next : Nat

/-- Go's `chi.NewRouter()`: a fresh router with no route. -/
def NewRouter {σ : Type} (rs : Routers σ) : Nat × Routers σ :=
  (rs.next, { routes := Function.update rs.routes rs.next [], next := rs.next + 1 })

/-- The node types of chi's routing tree. -/
inductive nodeTyp where
  | ntStatic
  | ntRegexp
  | ntParam
  | ntCatchAll
deriving DecidableEq, Repr

/-- What chi's `patNextSegment` returns: node type, param key, regexp string,
param tail byte, param starting index, param ending index. -/
structure Segment where
  typ : nodeTyp
  key : List Nat
  rexpat : List Nat
  tail : Nat
  ps : Nat
  pe : Nat
deriving DecidableEq, Repr

/-- Go's `strings.IndexByte(s, c)`, `none` for -1. -/
def IndexByte : List Nat → Nat → Option Nat
  | [], _ => none
  | b :: rest, c => if b = c then some 0 else (IndexByte rest c).map (fun i => i + 1)

/-- The loop of `patNextSegment` that reads `pattern[ps:]` to the closing '}',
counting opens and closes in `cc`: the index `i` at which the count returns
to 0. -/
def closingBrace : List Nat → Int → Nat → Option Nat
  | [], _, _ => none
  | c :: rest, cc, i =>
    if c = 123 then closingBrace rest (cc + 1) (i + 1)
    else if c = 125 then
      if cc - 1 = 0 then some i else closingBrace rest (cc - 1) (i + 1)
    else closingBrace rest cc (i + 1)

/-- The param branch of `patNextSegment`, on `rest = pattern[ps:]`: `none` is
the panic for a missing closing delimiter. A key with ':' is a regexp param,
whose expression gets the anchors '^' and '$'. -/
def paramSegment (ps : Nat) (rest : List Nat) : Option Segment :=
  match closingBrace rest 0 0 with
  | none => none
  | some i =>
    if i = 0 then none
    else
      let key := (rest.take i).drop 1
      let tail := (rest.drop (i + 1)).headD 47
      match IndexByte key 58 with
      | none => some ⟨nodeTyp.ntParam, key, [], tail, ps, ps + i + 1⟩
      | some idx =>
        let rexpat := key.drop (idx + 1)
        let rexpat :=
          if rexpat = [] then rexpat
          else
            let anchored := if rexpat.head? = some 94 then rexpat else 94 :: rexpat
            if anchored.getLast? = some 36 then anchored else anchored ++ [36]
        some ⟨nodeTyp.ntRegexp, key.take idx, rexpat, tail, ps, ps + i + 1⟩

/-- The function `patNextSegment` of chi, on the bytes of the pattern: the next
param, regexp or wildcard segment, or the whole pattern as a static one; `none`
is a panic (a wildcard that is not last, a missing closing delimiter). -/
def patNextSegment (pattern : List Nat) : Option Segment :=
  match IndexByte pattern 123, IndexByte pattern 42 with
  | none, none => some ⟨nodeTyp.ntStatic, [], [], 0, 0, pattern.length⟩
  | some ps, ws =>
    if (match ws with
        | some ws => decide (ws < ps)
        | none => false) then none
    else paramSegment ps (pattern.drop ps)
  | none, some ws =>
    if ws < pattern.length - 1 then none
    else some ⟨nodeTyp.ntCatchAll, [42], [], 0, ws, pattern.length⟩

/-- The segments of a pattern, by `patNextSegment` on what is left after each
segment (the loop of `patParamKeys`, and the walk of `InsertRoute`): each
segment with the static text before it, and the static text after the last.
Every segment takes at least one byte, so `fuel` above the length of the
pattern is never used up. -/
def patSegments : Nat → List Nat → Option (List (List Nat × Segment) × List Nat)
  | 0, _ => none
  | fuel + 1, pat =>
    match patNextSegment pat with
    | none => none
    | some seg =>
      if seg.typ = nodeTyp.ntStatic then some ([], pat)
      else
        (patSegments fuel (pat.drop seg.pe)).map
          (fun r => ((pat.take seg.ps, seg) :: r.1, r.2))

/-- The check of `patParamKeys` on the keys in order: `none` is the panic for
a duplicate param key. -/
def collectKeys : List (List Nat) → List (List Nat) → Option (List (List Nat))
  | paramKeys, [] => some paramKeys
  | paramKeys, key :: rest =>
    if key ∈ paramKeys then none else collectKeys (paramKeys ++ [key]) rest

/-- The function `patParamKeys` of chi: the param keys of a pattern; `none` is
a panic. -/
def patParamKeys (pattern : List Nat) : Option (List (List Nat)) :=
  (patSegments (pattern.length + 1) pattern).bind
    (fun r => collectKeys [] (r.1.map (fun s => s.2.key)))

/-- An edge of chi's routing tree: static text, or a param, regexp or
catch-all node (found by its type, its tail byte and, for a regexp, its
expression; the param key is not part of it). -/
inductive Edge where
  | static (text : List Nat)
  | param (tail : Nat)
  | regexp (rexpat : List Nat) (tail : Nat)
  | catchAll
deriving DecidableEq, Repr

/-- The edge for a stretch of static text, none when it is empty. -/
def staticEdge (text : List Nat) : List Edge :=
  if text = [] then [] else [Edge.static text]

/-- The edge of a param, regexp or catch-all segment. -/
def segmentEdge (seg : Segment) : Edge :=
  match seg.typ with
  | nodeTyp.ntRegexp => Edge.regexp seg.rexpat seg.tail
  | nodeTyp.ntCatchAll => Edge.catchAll
  | _ => Edge.param seg.tail

/-- The node of the routing tree that `InsertRoute` reaches or creates for a
pattern, as the path of edges to it; `none` is a panic of `patNextSegment`. -/
def nodePath (pattern : List Nat) : Option (List Edge) :=
  (patSegments (pattern.length + 1) pattern).map
    (fun r => r.1.flatMap (fun s => staticEdge s.1 ++ [segmentEdge s.2]) ++ staticEdge r.2)

/-- Whether a route is the endpoint of `method` at the node with this path. -/
def Route.sameEndpoint {σ : Type} (rt : Route σ) (method : String) (path : List Edge) : Bool :=
  decide (rt.method = method) && decide (nodePath (bytes rt.pattern) = some path)

/-- The method `Mux.handle` of chi, `none` for a panic: the pattern must begin
with '/', its segments must parse without a duplicate key, and its regexps must
compile (`regexpCompiles` stands for `regexp.Compile` succeeding); the handler
then becomes the endpoint of the method at the node of the pattern, in place
of an endpoint already there. -/
def Routers.handle {σ : Type} (regexpCompiles : List Nat → Bool) (rs : Routers σ) (r : Nat)
    (method pattern : String) (handler : HandlerFunc σ) : Option (Routers σ) :=
  if (bytes pattern).head? ≠ some 47 then none
  else
    match nodePath (bytes pattern), patParamKeys (bytes pattern) with
    | some path, some _ =>
      if path.all (fun e =>
          match e with
          | Edge.regexp rexpat _ => regexpCompiles rexpat
          | _ => true) then
        some
          { routes :=
              Function.update rs.routes r
                ((rs.routes r).filter (fun rt => !rt.sameEndpoint method path)
                  ++ [⟨method, pattern, handler⟩]),
            next := rs.next }
      else none
    | _, _ => none

/-- Go's `r.Post(pattern, handler)` of chi. -/
def Routers.Post {σ : Type} (regexpCompiles : List Nat → Bool) (rs : Routers σ) (r : Nat)
    (pattern : String) (handler : HandlerFunc σ) : Option (Routers σ) :=
  rs.handle regexpCompiles r "POST" pattern handler

/-- Go's `r.Get(pattern, handler)` of chi. -/
def Routers.Get {σ : Type} (regexpCompiles : List Nat → Bool) (rs : Routers σ) (r : Nat)
    (pattern : String) (handler : HandlerFunc σ) : Option (Routers σ) :=
  rs.handle regexpCompiles r "GET" pattern handler

/-- Go's `r.Group(fn)` of chi: `fn` runs on an inline router with no middleware
of its own, which registers its routes in the routing tree of `r`; a panic in
`fn` is a panic of `Group`. -/
def Routers.Group {σ : Type} (rs : Routers σ) (r : Nat)
    (fn : Nat → Routers σ → Option (Routers σ)) : Option (Routers σ) :=
  fn r rs

/-- `ChiServerOptions`; a nil `BaseRouter` is `none`. -/
structure ChiServerOptions (σ : Type) where
  BaseURL : String := ""
  BaseRouter : Option Nat := none
  Middlewares : List (MiddlewareFunc σ) := []

/-- `HandlerWithOptions` creates http.Handler with additional options: the
router returned and the routers after the registrations, `none` when a
registration panics. -/
def HandlerWithOptions {σ : Type} (BindStyledParameter : BindFunc)
    (regexpCompiles : List Nat → Bool) (si : ServerInterface σ)
    (options : ChiServerOptions σ) (rs : Routers σ) : Option (Nat × Routers σ) :=
  let (r, rs) :=
    match options.BaseRouter with
    | none => NewRouter rs
    | some r => (r, rs)
  let wrapper : ServerInterfaceWrapper σ :=
    { Handler := si, HandlerMiddlewares := options.Middlewares }
  match rs.Group r (fun r rs =>
      rs.Post regexpCompiles r (options.BaseURL ++ "/") wrapper.CreateShortURL) with
  | none => none
  | some rs =>
    match rs.Group r (fun r rs =>
        rs.Get regexpCompiles r (options.BaseURL ++ "/stats/{short-url}")
          (wrapper.GetStats BindStyledParameter)) with
    | none => none
    | some rs =>
      match rs.Group r (fun r rs =>
          rs.Get regexpCompiles r (options.BaseURL ++ "/{short-url}")
            (wrapper.RedirectURL BindStyledParameter)) with
      | none => none
      | some rs => some (r, rs)

/-- `Handler` creates http.Handler with routing matching OpenAPI spec. -/
def Handler {σ : Type} (BindStyledParameter : BindFunc) (regexpCompiles : List Nat → Bool)
    (si : ServerInterface σ) (rs : Routers σ) : Option (Nat × Routers σ) :=
  HandlerWithOptions BindStyledParameter regexpCompiles si {} rs

/-! ### Recording handlers, to count invocations -/

/-- A call of a `ServerInterface` method, with its short-url argument. -/
inductive Call where
  | CreateShortURL
  | GetStats (shortUrl : String)
  | RedirectURL (shortUrl : String)
deriving DecidableEq, Repr

/-- A `ServerInterface` whose methods only record that they were called. -/
def recorder : ServerInterface (List Call) where
  CreateShortURL := fun w _ log => (w, log ++ [Call.CreateShortURL])
  GetStats := fun w _ shortUrl log => (w, log ++ [Call.GetStats shortUrl])
  RedirectURL := fun w _ shortUrl log => (w, log ++ [Call.RedirectURL shortUrl])

/-- A middleware that answers 403 by itself and never calls the next handler. -/
def forbidAll {σ : Type} : MiddlewareFunc σ :=
  fun _ env => (fun w _ env => (Error w "Forbidden" 403, env), env)

/-- A `BindStyledParameter` that accepts every non-empty value as it is. -/
def bindNonEmpty : BindFunc :=
  fun _ _ paramName value =>
    if value = "" then Except.error ("parameter '" ++ paramName ++ "' is empty, can't bind its value")
    else Except.ok value

end openapi

namespace store

/-! ## The URL store

The packages `app` (the `URLStore` interface), `db/memstore` and `db/pgstore`
are imported by `main.go`; the definitions below follow sections 3 and 4 of the
specification. They describe calls made one after the other on a backend whose
storage is available: an infrastructure fault is an event of the environment,
not a result these definitions compute. -/

/-- Modelled from the spec: the `ShortURLRecord` of section 3 (package `app`):
code, original URL, hit count and creation time. -/
structure ShortURLRecord where
  code : String
  originalURL : String
  hitCount : Nat
  createdAt : Nat
deriving DecidableEq, Repr

/-- Modelled from the spec: the error taxonomy of section 7 (package `app`).
`InvalidURL` is the rejection of an empty original URL by `Create`, for which
the spec names no kind. -/
inductive StoreError where
  | NotFound
  | CodeSpaceExhausted
  | InfrastructureError
  | InvalidURL
deriving DecidableEq, Repr

/-- Modelled from the spec: the Code Generator of section 4.1 and the retry
bound of `Create` (section 4.2). `generate url n` is the candidate code of the
`n`-th draw, from a source of randomness or from a hash of the original URL with
the salt `n`; `maxAttempts` bounds the candidates tried by one `Create`. -/
structure Generator where
  generate : String → Nat → String
  maxAttempts : Nat

/-- Modelled from the spec: the result of a store operation (section 6), a
value or an error. -/
abbrev Result (α : Type) := Except StoreError α

/-! ### Memory backend (section 4.3) -/

/-- Modelled from the spec: the state of the Memory Backend (package
`db/memstore`): the in-process mapping from code to record, and the number of
candidates drawn so far from the generator. -/
structure MemStore where
  records : String → Option ShortURLRecord
  draws : Nat

/-- Modelled from the spec: `memstore.NewMemStore()`, the empty memory store. -/
def NewMemStore : MemStore := { records := fun _ => none, draws := 0 }

/-- Modelled from the spec: the retry loop of `Create` on the memory backend
(section 4.2 and 4.3), with `attempts` candidates left: the check for an
existing code and the insert are one critical section. -/
def MemStore.createLoop (g : Generator) (originalURL : String) (now : Nat) :
    Nat → MemStore → Result String × MemStore
  | 0, s => (Except.error StoreError.CodeSpaceExhausted, s)
  | attempts + 1, s =>
    let code := g.generate originalURL s.draws
    let s := { s with draws := s.draws + 1 }
    match s.records code with
    | some _ => MemStore.createLoop g originalURL now attempts s
    | none =>
      (Except.ok code,
        { records :=
            Function.update s.records code
              (some { code := code, originalURL := originalURL, hitCount := 0,
                      createdAt := now }),
          draws := s.draws })

/-- Modelled from the spec: `Create(originalURL)` of the memory backend
(section 4.2); `now` is the creation time. -/
def MemStore.Create (g : Generator) (s : MemStore) (originalURL : String) (now : Nat) :
    Result String × MemStore :=
  if originalURL = "" then (Except.error StoreError.InvalidURL, s)
  else MemStore.createLoop g originalURL now g.maxAttempts s

/-- Modelled from the spec: `Resolve(code)` of the memory backend (section
4.2): the lookup and the increment of the hit count are one step. -/
def MemStore.Resolve (s : MemStore) (code : String) : Result String × MemStore :=
  match s.records code with
  | none => (Except.error StoreError.NotFound, s)
  | some r =>
    (Except.ok r.originalURL,
      { records := Function.update s.records code (some { r with hitCount := r.hitCount + 1 }),
        draws := s.draws })

/-- Modelled from the spec: `Stats(code)` of the memory backend (section 4.2). -/
def MemStore.Stats (s : MemStore) (code : String) : Result Nat × MemStore :=
  match s.records code with
  | none => (Except.error StoreError.NotFound, s)
  | some r => (Except.ok r.hitCount, s)

/-! ### Persistent backend (section 4.4) -/

/-- Modelled from the spec: the durable table of the Persistent Backend
(package `db/pgstore`), its rows in insertion order. -/
abbrev Table := List ShortURLRecord

/-- Modelled from the spec: the insert of the storage engine (section 4.4),
which enforces the uniqueness constraint on `code`: `none` is the
uniqueness-constraint violation. -/
def Table.insert (rows : Table) (row : ShortURLRecord) : Option Table :=
  if rows.any (fun r => r.code = row.code) then none else some (rows ++ [row])

/-- Modelled from the spec: the single atomic update of section 4.4
(increment-and-fetch): the hit count of the rows with this code is incremented
and the original URL is returned; `none` when no row has the code. -/
def Table.incrementAndFetch (rows : Table) (code : String) : Option String × Table :=
  match rows.find? (fun r => r.code = code) with
  | none => (none, rows)
  | some r =>
    (some r.originalURL,
      rows.map (fun row =>
        if row.code = code then { row with hitCount := row.hitCount + 1 } else row))

/-- Modelled from the spec: the state of the Persistent Backend (package
`db/pgstore`): the table, and the number of candidates drawn so far. -/
structure PgStore where
  rows : Table
  draws : Nat
deriving DecidableEq, Repr

/-- Modelled from the spec: a persistent store over an empty table. -/
def NewPgStore : PgStore := { rows := [], draws := 0 }

/-- Modelled from the spec: the retry loop of `Create` on the persistent
backend (section 4.4): `Create` attempts an insert and takes a
uniqueness-constraint violation as a collision, to retry with a new candidate. -/
def PgStore.createLoop (g : Generator) (originalURL : String) (now : Nat) :
    Nat → PgStore → Result String × PgStore
  | 0, s => (Except.error StoreError.CodeSpaceExhausted, s)
  | attempts + 1, s =>
    let code := g.generate originalURL s.draws
    let s := { s with draws := s.draws + 1 }
    match s.rows.insert
        { code := code, originalURL := originalURL, hitCount := 0, createdAt := now } with
    | none => PgStore.createLoop g originalURL now attempts s
    | some rows => (Except.ok code, { s with rows := rows })

/-- Modelled from the spec: `Create(originalURL)` of the persistent backend. -/
def PgStore.Create (g : Generator) (s : PgStore) (originalURL : String) (now : Nat) :
    Result String × PgStore :=
  if originalURL = "" then (Except.error StoreError.InvalidURL, s)
  else PgStore.createLoop g originalURL now g.maxAttempts s

/-- Modelled from the spec: `Resolve(code)` of the persistent backend. -/
def PgStore.Resolve (s : PgStore) (code : String) : Result String × PgStore :=
  match s.rows.incrementAndFetch code with
  | (none, _) => (Except.error StoreError.NotFound, s)
  | (some originalURL, rows) => (Except.ok originalURL, { s with rows := rows })

/-- Modelled from the spec: `Stats(code)` of the persistent backend. -/
def PgStore.Stats (s : PgStore) (code : String) : Result Nat × PgStore :=
  match s.rows.find? (fun r => r.code = code) with
  | none => (Except.error StoreError.NotFound, s)
  | some r => (Except.ok r.hitCount, s)

/-! ### The URL Store capability over both backends -/

/-- Modelled from the spec: the two backends of the URL Store (section 2). -/
inductive Backend where
  | Memory
  | Persistent
deriving DecidableEq, Repr

/-- Modelled from the spec: the state a backend owns. -/
def Backend.State : Backend → Type
  | Backend.Memory => MemStore
  | Backend.Persistent => PgStore

/-- Modelled from the spec: the store with no record, of either backend. -/
def Backend.empty : (b : Backend) → b.State
  | Backend.Memory => NewMemStore
  | Backend.Persistent => NewPgStore

/-- Modelled from the spec: the record a backend holds for a code, if any. -/
def Backend.recordOf : (b : Backend) → b.State → String → Option ShortURLRecord
  | Backend.Memory, s, code => MemStore.records s code
  | Backend.Persistent, s, code => (PgStore.rows s).find? (fun r => r.code = code)

/-- Modelled from the spec: `Create(originalURL) -> code, error` of the URL
Store, on either backend. -/
def Create (g : Generator) : (b : Backend) → b.State → String → Nat → Result String × b.State
  | Backend.Memory, s, originalURL, now => MemStore.Create g s originalURL now
  | Backend.Persistent, s, originalURL, now => PgStore.Create g s originalURL now

/-- Modelled from the spec: `Resolve(code) -> originalURL, error` of the URL
Store, on either backend. -/
def Resolve : (b : Backend) → b.State → String → Result String × b.State
  | Backend.Memory, s, code => MemStore.Resolve s code
  | Backend.Persistent, s, code => PgStore.Resolve s code

/-- Modelled from the spec: `Stats(code) -> hitCount, error` of the URL Store,
on either backend. -/
def Stats : (b : Backend) → b.State → String → Result Nat × b.State
  | Backend.Memory, s, code => MemStore.Stats s code
  | Backend.Persistent, s, code => PgStore.Stats s code

/-- Modelled from the spec: `n` calls of `Resolve(code)` one after the other;
the state they leave. -/
def resolveTimes (b : Backend) (code : String) : Nat → b.State → b.State
  | 0, s => s
  | n + 1, s => resolveTimes b code n (Resolve b s code).2

/-- Modelled from the spec: a call of one of the three operations of the URL
Store (section 5: all mutation goes through them). -/
inductive Op where
  | Create (originalURL : String) (now : Nat)
  | Resolve (code : String)
  | Stats (code : String)
deriving DecidableEq, Repr

/-- Modelled from the spec: a history of calls run one after the other; the
state it leaves and the codes its `Create` calls returned. -/
def run (g : Generator) (b : Backend) : List Op → b.State → b.State × List String
  | [], s => (s, [])
  | Op.Create originalURL now :: ops, s =>
    match Create g b s originalURL now with
    | (Except.ok code, s) => let r := run g b ops s; (r.1, code :: r.2)
    | (Except.error _, s) => run g b ops s
  | Op.Resolve code :: ops, s => run g b ops (Resolve b s code).2
  | Op.Stats code :: ops, s => run g b ops (Stats b s code).2

/-- A generator for examples: the decimal numeral of the draw number. -/
def counterGenerator : Generator := { generate := fun _ n => toString n, maxAttempts := 5 }

end store

/-! ## Theorems -/

namespace urlshortener

theorem hasPrefix_iff (s pre : String) :
    HasPrefix s pre = true ↔ ∃ t : String, s = pre ++ t := by
  unfold HasPrefix
  rw [List.isPrefixOf_iff_prefix]
  constructor
  · rintro ⟨t, ht⟩
    exact ⟨⟨t⟩, by simp [String.ext_iff, ht]⟩
  · rintro ⟨t, rfl⟩
    exact ⟨t.data, by simp⟩

theorem memory_not_postgres : HasPrefix "memory" "postgres://" = false := by decide

/-- C1: in `main` the store constructors called depend on the DSN alone: the
memory store is constructed exactly when the DSN is "memory", the Postgres store
constructor is called (with the DSN) exactly when the DSN begins with
"postgres://", every other DSN (the empty one, "Memory", "Postgres://" among
them) ends in the fatal unknown-store message with no constructor called, and no
DSN selects both backends. -/
theorem main_store_selection {Store : Type} (NewMemStore : Store)
    (NewPgStore : String → Except String Store) (conf : Config) :
    ((main NewMemStore NewPgStore conf).calls = [StoreCall.NewMemStore] ↔ conf.DSN = "memory")
    ∧ ((main NewMemStore NewPgStore conf).calls = [StoreCall.NewPgStore conf.DSN]
        ↔ HasPrefix conf.DSN "postgres://" = true)
    ∧ ((∃ dsn, StoreCall.NewPgStore dsn ∈ (main NewMemStore NewPgStore conf).calls)
        ↔ ∃ t : String, conf.DSN = "postgres://" ++ t)
    ∧ (StoreCall.NewMemStore ∈ (main NewMemStore NewPgStore conf).calls ↔ conf.DSN = "memory")
    ∧ (conf.DSN = "memory" →
        (main NewMemStore NewPgStore conf).outcome = Startup.running NewMemStore)
    ∧ (HasPrefix conf.DSN "postgres://" = true →
        (main NewMemStore NewPgStore conf).outcome =
          match NewPgStore conf.DSN with
          | Except.ok store => Startup.running store
          | Except.error err => Startup.fatal (err ++ "\n"))
    ∧ ((conf.DSN ≠ "memory" ∧ HasPrefix conf.DSN "postgres://" = false) ↔
        (main NewMemStore NewPgStore conf) =
          { calls := [],
            outcome :=
              Startup.fatal ("unknown store value in config: \"" ++ conf.DSN ++ "\"\n") })
    ∧ ¬ (conf.DSN = "memory" ∧ HasPrefix conf.DSN "postgres://" = true)
    ∧ (∀ (Store2 : Type) (mem2 : Store2) (pg2 : String → Except String Store2),
        (main mem2 pg2 conf).calls = (main NewMemStore NewPgStore conf).calls)
    ∧ (∀ dsn ∈ ["", "Memory", "Postgres://", "MEMORY", "memory ", "postgres:/"],
        main NewMemStore NewPgStore ⟨dsn⟩ =
          { calls := [],
            outcome := Startup.fatal ("unknown store value in config: \"" ++ dsn ++ "\"\n") }) := by
  have hcalls : ∀ (S : Type) (m : S) (p : String → Except String S),
      (main m p conf).calls =
        if conf.DSN = "memory" then [StoreCall.NewMemStore]
        else if HasPrefix conf.DSN "postgres://" = true then [StoreCall.NewPgStore conf.DSN]
        else [] := by
    intro S m p
    unfold main
    by_cases h1 : conf.DSN = "memory"
    · simp [h1]
    · by_cases h2 : HasPrefix conf.DSN "postgres://" = true
      · simp only [h1, h2, if_true, if_false]
        cases p conf.DSN <;> rfl
      · simp [h1, h2]
  have hexcl : ¬ (conf.DSN = "memory" ∧ HasPrefix conf.DSN "postgres://" = true) := by
    rintro ⟨h1, h2⟩
    rw [h1, memory_not_postgres] at h2
    exact Bool.noConfusion h2
  refine ⟨?_, ?_, ?_, ?_, ?_, ?_, ?_, hexcl, ?_, ?_⟩
  · rw [hcalls]
    by_cases h1 : conf.DSN = "memory"
    · simp [h1]
    · by_cases h2 : HasPrefix conf.DSN "postgres://" = true <;> simp [h1, h2]
  · rw [hcalls]
    by_cases h1 : conf.DSN = "memory"
    · have h2 : ¬ HasPrefix conf.DSN "postgres://" = true := fun h2 => hexcl ⟨h1, h2⟩
      simp [h1, h2]
      simpa [h1] using h2
    · by_cases h2 : HasPrefix conf.DSN "postgres://" = true <;> simp [h1, h2]
  · rw [hcalls, ← hasPrefix_iff]
    by_cases h1 : conf.DSN = "memory"
    · have h2 : ¬ HasPrefix conf.DSN "postgres://" = true := fun h2 => hexcl ⟨h1, h2⟩
      simp [h1, h2]
      simpa [h1] using h2
    · by_cases h2 : HasPrefix conf.DSN "postgres://" = true <;> simp [h1, h2]
  · rw [hcalls]
    by_cases h1 : conf.DSN = "memory"
    · simp [h1]
    · by_cases h2 : HasPrefix conf.DSN "postgres://" = true <;> simp [h1, h2]
  · intro h1
    simp [main, h1]
  · intro h2
    have h1 : ¬ conf.DSN = "memory" := fun h1 => hexcl ⟨h1, h2⟩
    simp only [main, h1, h2, if_true, if_false]
    cases NewPgStore conf.DSN <;> rfl
  · constructor
    · rintro ⟨h1, h2⟩
      simp [main, h1, h2]
    · intro h
      have hc := congrArg MainResult.calls h
      rw [hcalls] at hc
      by_cases h1 : conf.DSN = "memory"
      · simp [h1] at hc
      · by_cases h2 : HasPrefix conf.DSN "postgres://" = true
        · simp [h1, h2] at hc
        · exact ⟨h1, by simpa using h2⟩
  · intro S m p
    rw [hcalls, hcalls]
  · intro dsn hdsn
    simp only [List.mem_cons, List.mem_singleton, List.not_mem_nil, or_false] at hdsn
    rcases hdsn with h | h | h | h | h | h <;> subst h <;> rfl

/-- Witness of C1 at the DSN "postgres://db" with a constructor that succeeds. -/
theorem main_store_selection_witness :
    (main (0 : Nat) (fun _ => Except.ok 1) ⟨"postgres://db"⟩).calls
        = [StoreCall.NewPgStore "postgres://db"]
    ∧ (main (0 : Nat) (fun _ => Except.ok 1) ⟨"postgres://db"⟩).outcome = Startup.running 1 :=
  ⟨(main_store_selection (0 : Nat) (fun _ => Except.ok 1) ⟨"postgres://db"⟩).2.1.mpr (by decide),
   (main_store_selection (0 : Nat) (fun _ => Except.ok 1) ⟨"postgres://db"⟩).2.2.2.2.2.1
     (by decide)⟩

end urlshortener

namespace openapi

theorem len_pos_iff (s : String) : len s > 0 ↔ s ≠ "" := by
  obtain ⟨cs⟩ := s
  cases cs with
  | nil => simp [len, String.utf8ByteSize, String.utf8ByteSize.go]
  | cons c cs =>
    simp [len, String.utf8ByteSize, String.utf8ByteSize.go, String.ext_iff]
    have := Char.utf8Size_pos c
    omega

/-- C6: `PathToRawSpec` returns a map with at most one entry: the empty map for
the empty path, and for a non-empty path the map whose only key is the path
itself, bound to `rawSpec`. -/
theorem PathToRawSpec_entries {Getter : Type} (rawSpec : Getter) (pathToFile : String) :
    (PathToRawSpec rawSpec pathToFile).length ≤ 1
    ∧ (pathToFile = "" → PathToRawSpec rawSpec pathToFile = [])
    ∧ (pathToFile ≠ "" →
        PathToRawSpec rawSpec pathToFile = [(pathToFile, rawSpec)]
        ∧ (PathToRawSpec rawSpec pathToFile).length = 1
        ∧ GoMap.get? (PathToRawSpec rawSpec pathToFile) pathToFile = some rawSpec
        ∧ ∀ k, k ≠ pathToFile → GoMap.get? (PathToRawSpec rawSpec pathToFile) k = none) := by
  by_cases h : pathToFile = ""
  · subst h
    simp [PathToRawSpec, GoMap.make, len, String.utf8ByteSize, String.utf8ByteSize.go]
  · have hpos : len pathToFile > 0 := (len_pos_iff pathToFile).mpr h
    have hval : PathToRawSpec rawSpec pathToFile = [(pathToFile, rawSpec)] := by
      simp [PathToRawSpec, GoMap.make, GoMap.set, hpos]
    refine ⟨by simp [hval], fun h0 => absurd h0 h, fun _ => ⟨hval, by simp [hval], ?_, ?_⟩⟩
    · simp [hval, GoMap.get?]
    · intro k hk
      simp [hval, GoMap.get?, Ne.symm hk]

/-- Witness of C6 at the path "spec.yaml". -/
theorem PathToRawSpec_entries_witness :
    PathToRawSpec (7 : Nat) "spec.yaml" = [("spec.yaml", 7)] :=
  ((PathToRawSpec_entries (7 : Nat) "spec.yaml").2.2 (by decide)).1

end openapi

namespace openapi

/-! ### The embedded swagger specification -/

theorem decodeMap_encodeStd :
    ∀ i : Fin 64, decodeMap ((bytes encodeStd).getD i.val 0) = i.val := by decide!

theorem decodeMap_outside :
    ∀ b : Fin 256, b.val ∉ bytes encodeStd → decodeMap b.val = 0xff := by decide!

theorem swaggerSpec_eval :
    swaggerSpec.length = 12
    ∧ isPaddedBase64 (bytes (Join swaggerSpec "")) = true
    ∧ (DecodeString (Join swaggerSpec "")).2 = none
    ∧ (DecodeString (Join swaggerSpec "")).1.take 3 = [0x1f, 0x8b, 0x08] := by
  decide!

theorem base64_msg_ne (a b : String) :
    "error decompressing spec: " ++ a ≠ "error base64 decoding spec: " ++ b := by
  intro h
  have h2 := congrArg (fun s => s.data.getD 6 'x') h
  simp [String.data_append] at h2

theorem decodeSpec_of_decoded {Reader : Type} (NewReader : List Nat → Except String Reader)
    (ReadFrom : Reader → Except String (List Nat))
    (h : (DecodeString (Join swaggerSpec "")).2 = none) :
    decodeSpec NewReader ReadFrom =
      match NewReader (DecodeString (Join swaggerSpec "")).1 with
      | Except.error err => Except.error ("error decompressing spec: " ++ err)
      | Except.ok zr =>
        match ReadFrom zr with
        | Except.error err => Except.error ("error decompressing spec: " ++ err)
        | Except.ok buf => Except.ok buf := by
  unfold decodeSpec
  generalize DecodeString (Join swaggerSpec "") = d at h ⊢
  obtain ⟨z, e⟩ := d
  simp only at h
  subst h
  rfl

/-- C7: the 12 chunks of `swaggerSpec`, joined, are well-formed standard padded
base64 (a multiple of 4 bytes of the alphabet, padding only at the end), so
`DecodeString` returns no error on them and `decodeSpec` never returns its
base64 error, whatever the gzip steps do; the decoded bytes begin with the
gzip header 0x1f 0x8b 0x08. -/
theorem swaggerSpec_is_base64_gzip :
    swaggerSpec.length = 12
    ∧ isPaddedBase64 (bytes (Join swaggerSpec "")) = true
    ∧ (DecodeString (Join swaggerSpec "")).2 = none
    ∧ (DecodeString (Join swaggerSpec "")).1.take 3 = [0x1f, 0x8b, 0x08]
    ∧ ∀ (Reader : Type) (NewReader : List Nat → Except String Reader)
        (ReadFrom : Reader → Except String (List Nat)),
        (decodeSpec NewReader ReadFrom =
          match NewReader (DecodeString (Join swaggerSpec "")).1 with
          | Except.error err => Except.error ("error decompressing spec: " ++ err)
          | Except.ok zr =>
            match ReadFrom zr with
            | Except.error err => Except.error ("error decompressing spec: " ++ err)
            | Except.ok buf => Except.ok buf)
        ∧ ∀ e : String,
            decodeSpec NewReader ReadFrom ≠ Except.error ("error base64 decoding spec: " ++ e) := by
  obtain ⟨h12, hwf, herr, hhead⟩ := swaggerSpec_eval
  refine ⟨h12, hwf, herr, hhead, ?_⟩
  intro Reader NewReader ReadFrom
  have hd := decodeSpec_of_decoded NewReader ReadFrom herr
  refine ⟨hd, ?_⟩
  intro e
  rw [hd]
  cases NewReader (DecodeString (Join swaggerSpec "")).1 with
  | error err =>
    intro h
    exact base64_msg_ne err e (Except.error.inj h)
  | ok zr =>
    dsimp only
    cases ReadFrom zr with
    | error err =>
      intro h
      exact base64_msg_ne err e (Except.error.inj h)
    | ok buf =>
      intro h
      exact Except.noConfusion h

end openapi

namespace openapi

/-! ### The server wrapper and the routes -/

theorem withContext_context (r : Request) : r.WithContext r.Context = r := rfl

theorem applyMiddlewares_nil {σ : Type} (handler : HandlerFunc σ) (env : σ) :
    applyMiddlewares [] handler env = (handler, env) := rfl

theorem Error_fresh (w : ResponseWriter) (msg : String) (code : Nat)
    (hs : w.status = none) (hb : w.body = "") :
    (Error w msg code).status = some code ∧ (Error w msg code).body = msg ++ "\n" := by
  obtain ⟨hd, st, bd⟩ := w
  simp only at hs hb
  subst hs hb
  simp [Error, ResponseWriter.Write, ResponseWriter.WriteHeader, ResponseWriter.SetHeader,
    ResponseWriter.DelHeader]

/-! ### The patterns of the three routes -/

/-- C8, as amended: when binding the path parameter "short-url" fails, the
GetStats and RedirectURL wrappers answer with `http.Error`, status 400 and the
text "Invalid format for parameter short-url: " followed by the error, and leave
the rest of the state alone, whatever the middlewares and the handler are; when
binding succeeds they run once the chain made of the handler method applied to
the bound value and wrapped by the middlewares in order, which with no
middleware is one call of the handler method with the bound value. The
CreateShortURL wrapper has no failure path and always runs its chain once. -/
theorem wrapper_dispatch {σ : Type} (BindStyledParameter : BindFunc)
    (siw : ServerInterfaceWrapper σ) (w : ResponseWriter) (r : Request) (env : σ) :
    (∀ err, BindStyledParameter "simple" false "short-url" (URLParam r "short-url")
          = Except.error err →
        siw.GetStats BindStyledParameter w r env
          = (Error w ("Invalid format for parameter short-url: " ++ err) 400, env)
        ∧ siw.RedirectURL BindStyledParameter w r env
          = (Error w ("Invalid format for parameter short-url: " ++ err) 400, env)
        ∧ (w.status = none → w.body = "" →
            (siw.GetStats BindStyledParameter w r env).1.status = some 400
            ∧ (siw.GetStats BindStyledParameter w r env).1.body
                = "Invalid format for parameter short-url: " ++ err ++ "\n"
            ∧ (siw.RedirectURL BindStyledParameter w r env).1.status = some 400
            ∧ (siw.RedirectURL BindStyledParameter w r env).1.body
                = "Invalid format for parameter short-url: " ++ err ++ "\n"))
    ∧ (∀ shortUrl, BindStyledParameter "simple" false "short-url" (URLParam r "short-url")
          = Except.ok shortUrl →
        siw.GetStats BindStyledParameter w r env
          = (applyMiddlewares siw.HandlerMiddlewares
              (fun w r env => siw.Handler.GetStats w r shortUrl env) env).1 w r
              (applyMiddlewares siw.HandlerMiddlewares
                (fun w r env => siw.Handler.GetStats w r shortUrl env) env).2
        ∧ siw.RedirectURL BindStyledParameter w r env
          = (applyMiddlewares siw.HandlerMiddlewares
              (fun w r env => siw.Handler.RedirectURL w r shortUrl env) env).1 w r
              (applyMiddlewares siw.HandlerMiddlewares
                (fun w r env => siw.Handler.RedirectURL w r shortUrl env) env).2
        ∧ (siw.HandlerMiddlewares = [] →
            siw.GetStats BindStyledParameter w r env = siw.Handler.GetStats w r shortUrl env
            ∧ siw.RedirectURL BindStyledParameter w r env
                = siw.Handler.RedirectURL w r shortUrl env))
    ∧ siw.CreateShortURL w r env
        = (applyMiddlewares siw.HandlerMiddlewares
            (fun w r env => siw.Handler.CreateShortURL w r env) env).1 w r
            (applyMiddlewares siw.HandlerMiddlewares
              (fun w r env => siw.Handler.CreateShortURL w r env) env).2
    ∧ (siw.HandlerMiddlewares = [] →
        siw.CreateShortURL w r env = siw.Handler.CreateShortURL w r env) := by
  refine ⟨?_, ?_, rfl, ?_⟩
  · intro err herr
    have h1 : siw.GetStats BindStyledParameter w r env
        = (Error w ("Invalid format for parameter short-url: " ++ err) 400, env) := by
      simp only [ServerInterfaceWrapper.GetStats, herr, StatusBadRequest]
    have h2 : siw.RedirectURL BindStyledParameter w r env
        = (Error w ("Invalid format for parameter short-url: " ++ err) 400, env) := by
      simp only [ServerInterfaceWrapper.RedirectURL, herr, StatusBadRequest]
    refine ⟨h1, h2, ?_⟩
    intro hs hb
    rw [h1, h2]
    have h := Error_fresh w ("Invalid format for parameter short-url: " ++ err) 400 hs hb
    exact ⟨h.1, h.2, h.1, h.2⟩
  · intro shortUrl hok
    have h1 : siw.GetStats BindStyledParameter w r env
        = (applyMiddlewares siw.HandlerMiddlewares
            (fun w r env => siw.Handler.GetStats w r shortUrl env) env).1 w r
            (applyMiddlewares siw.HandlerMiddlewares
              (fun w r env => siw.Handler.GetStats w r shortUrl env) env).2 := by
      simp only [ServerInterfaceWrapper.GetStats, hok, withContext_context]
    have h2 : siw.RedirectURL BindStyledParameter w r env
        = (applyMiddlewares siw.HandlerMiddlewares
            (fun w r env => siw.Handler.RedirectURL w r shortUrl env) env).1 w r
            (applyMiddlewares siw.HandlerMiddlewares
              (fun w r env => siw.Handler.RedirectURL w r shortUrl env) env).2 := by
      simp only [ServerInterfaceWrapper.RedirectURL, hok, withContext_context]
    refine ⟨h1, h2, ?_⟩
    intro hm
    rw [h1, h2, hm]
    exact ⟨rfl, rfl⟩
  · intro hm
    simp only [ServerInterfaceWrapper.CreateShortURL, hm, applyMiddlewares_nil,
      withContext_context]

/-- Witness of C8 as amended: the recording handler behind no middleware is
called once with the bound value "abc". -/
theorem wrapper_dispatch_witness :
    ServerInterfaceWrapper.GetStats bindNonEmpty ⟨recorder, []⟩ ⟨[], none, ""⟩
        ⟨"GET", "/stats/abc", ⟨[("short-url", "abc")]⟩⟩ []
      = (⟨[], none, ""⟩, [Call.GetStats "abc"]) :=
  ((wrapper_dispatch bindNonEmpty ⟨recorder, []⟩ ⟨[], none, ""⟩
      ⟨"GET", "/stats/abc", ⟨[("short-url", "abc")]⟩⟩ []).2.1 "abc" rfl).2.2 rfl |>.1

/-- Counterexample to C8 as stated: binding of "abc" succeeds, yet behind a
middleware that does not call its next handler no handler method is invoked,
by none of the three wrappers. -/
theorem wrapper_handler_not_invoked :
    bindNonEmpty "simple" false "short-url"
        (URLParam ⟨"GET", "/stats/abc", ⟨[("short-url", "abc")]⟩⟩ "short-url") = Except.ok "abc"
    ∧ (ServerInterfaceWrapper.GetStats bindNonEmpty ⟨recorder, [forbidAll]⟩ ⟨[], none, ""⟩
        ⟨"GET", "/stats/abc", ⟨[("short-url", "abc")]⟩⟩ []).2 = []
    ∧ (ServerInterfaceWrapper.RedirectURL bindNonEmpty ⟨recorder, [forbidAll]⟩ ⟨[], none, ""⟩
        ⟨"GET", "/abc", ⟨[("short-url", "abc")]⟩⟩ []).2 = []
    ∧ (ServerInterfaceWrapper.CreateShortURL ⟨recorder, [forbidAll]⟩ ⟨[], none, ""⟩
        ⟨"POST", "/", ⟨[]⟩⟩ []).2 = [] :=
  ⟨rfl, rfl, rfl, rfl⟩

end openapi

namespace store

/-! ### The URL store: what each operation does to the records -/

theorem memCreateLoop_ok (g : Generator) (url : String) (now : Nat) :
    ∀ (k : Nat) (s : MemStore) (c : String) (s' : MemStore),
      MemStore.createLoop g url now k s = (Except.ok c, s') →
      s.records c = none
      ∧ s'.records = Function.update s.records c
          (some { code := c, originalURL := url, hitCount := 0, createdAt := now }) := by
  intro k
  induction k with
  | zero =>
    intro s c s' h
    simp [MemStore.createLoop] at h
  | succ k ih =>
    intro s c s' h
    unfold MemStore.createLoop at h
    simp only at h
    cases hrec : s.records (g.generate url s.draws) with
    | some r =>
      rw [hrec] at h
      dsimp only at h
      have hk := ih _ c s' h
      exact hk
    | none =>
      rw [hrec] at h
      simp only [Prod.mk.injEq, Except.ok.injEq] at h
      obtain ⟨hc, hs⟩ := h
      subst hc
      subst hs
      exact ⟨hrec, rfl⟩

theorem memCreateLoop_error (g : Generator) (url : String) (now : Nat) :
    ∀ (k : Nat) (s : MemStore) (e : StoreError) (s' : MemStore),
      MemStore.createLoop g url now k s = (Except.error e, s') →
      s'.records = s.records := by
  intro k
  induction k with
  | zero =>
    intro s e s' h
    simp only [MemStore.createLoop, Prod.mk.injEq] at h
    rw [← h.2]
  | succ k ih =>
    intro s e s' h
    unfold MemStore.createLoop at h
    simp only at h
    cases hrec : s.records (g.generate url s.draws) with
    | some r =>
      rw [hrec] at h
      dsimp only at h
      have hk := ih _ e s' h
      exact hk
    | none =>
      rw [hrec] at h
      simp at h

theorem tableInsert_eq_some (rows : Table) (row : ShortURLRecord) (rows' : Table)
    (h : rows.insert row = some rows') :
    rows.find? (fun r => r.code = row.code) = none ∧ rows' = rows ++ [row] := by
  unfold Table.insert at h
  by_cases hany : rows.any (fun r => decide (r.code = row.code)) = true
  · simp [hany] at h
  · simp only [hany, Bool.false_eq_true, if_false, Option.some.injEq] at h
    refine ⟨?_, h.symm⟩
    rw [List.find?_eq_none]
    intro x hx hxc
    apply hany
    rw [List.any_eq_true]
    exact ⟨x, hx, hxc⟩

theorem pgCreateLoop_ok (g : Generator) (url : String) (now : Nat) :
    ∀ (k : Nat) (s : PgStore) (c : String) (s' : PgStore),
      PgStore.createLoop g url now k s = (Except.ok c, s') →
      s.rows.find? (fun r => r.code = c) = none
      ∧ s'.rows = s.rows ++ [{ code := c, originalURL := url, hitCount := 0, createdAt := now }] := by
  intro k
  induction k with
  | zero =>
    intro s c s' h
    simp [PgStore.createLoop] at h
  | succ k ih =>
    intro s c s' h
    unfold PgStore.createLoop at h
    simp only at h
    cases hins : Table.insert s.rows
        { code := g.generate url s.draws, originalURL := url, hitCount := 0, createdAt := now } with
    | none =>
      rw [hins] at h
      dsimp only at h
      have hk := ih _ c s' h
      exact hk
    | some rows =>
      rw [hins] at h
      simp only [Prod.mk.injEq, Except.ok.injEq] at h
      obtain ⟨hc, hs⟩ := h
      subst hc
      subst hs
      exact tableInsert_eq_some _ _ _ hins

theorem pgCreateLoop_error (g : Generator) (url : String) (now : Nat) :
    ∀ (k : Nat) (s : PgStore) (e : StoreError) (s' : PgStore),
      PgStore.createLoop g url now k s = (Except.error e, s') →
      s'.rows = s.rows := by
  intro k
  induction k with
  | zero =>
    intro s e s' h
    simp only [PgStore.createLoop, Prod.mk.injEq] at h
    rw [← h.2]
  | succ k ih =>
    intro s e s' h
    unfold PgStore.createLoop at h
    simp only at h
    cases hins : Table.insert s.rows
        { code := g.generate url s.draws, originalURL := url, hitCount := 0, createdAt := now } with
    | none =>
      rw [hins] at h
      dsimp only at h
      have hk := ih _ e s' h
      exact hk
    | some rows =>
      rw [hins] at h
      simp at h

theorem tableFind_increment (code c : String) :
    ∀ rows : Table,
      (rows.map (fun row =>
          if row.code = code then { row with hitCount := row.hitCount + 1 } else row)).find?
          (fun r => r.code = c)
        = (rows.find? (fun r => r.code = c)).map (fun row =>
            if row.code = code then { row with hitCount := row.hitCount + 1 } else row) := by
  intro rows
  induction rows with
  | nil => rfl
  | cons row rows ih =>
    have hcode : (if row.code = code then
        { row with hitCount := row.hitCount + 1 } else row).code = row.code := by
      split <;> rfl
    simp only [List.map_cons, List.find?_cons, hcode, ih]
    cases decide (row.code = c) <;> rfl

end store

namespace store

theorem Create_ok (g : Generator) (b : Backend) (s : b.State) (url : String) (now : Nat)
    (c : String) (s' : b.State) (h : Create g b s url now = (Except.ok c, s')) :
    url ≠ ""
    ∧ b.recordOf s c = none
    ∧ b.recordOf s' c = some { code := c, originalURL := url, hitCount := 0, createdAt := now }
    ∧ ∀ c', c' ≠ c → b.recordOf s' c' = b.recordOf s c' := by
  cases b with
  | Memory =>
    simp only [Create, MemStore.Create] at h
    by_cases hu : url = ""
    · simp [hu] at h
    · rw [if_neg hu] at h
      obtain ⟨h1, h2⟩ := memCreateLoop_ok g url now _ s c s' h
      refine ⟨hu, h1, ?_, ?_⟩
      · simp only [Backend.recordOf, h2, Function.update_same]
      · intro c' hc'
        simp only [Backend.recordOf, h2, Function.update_noteq hc']
  | Persistent =>
    simp only [Create, PgStore.Create] at h
    by_cases hu : url = ""
    · simp [hu] at h
    · rw [if_neg hu] at h
      obtain ⟨h1, h2⟩ := pgCreateLoop_ok g url now _ s c s' h
      refine ⟨hu, h1, ?_, ?_⟩
      · simp only [Backend.recordOf, h2, List.find?_append, h1]
        simp
      · intro c' hc'
        simp only [Backend.recordOf, h2, List.find?_append]
        have hne : ¬ c = c' := fun e => hc' e.symm
        simp [List.find?, hne]

theorem Create_error (g : Generator) (b : Backend) (s : b.State) (url : String) (now : Nat)
    (e : StoreError) (s' : b.State) (h : Create g b s url now = (Except.error e, s')) :
    ∀ c, b.recordOf s' c = b.recordOf s c := by
  intro c
  cases b with
  | Memory =>
    simp only [Create, MemStore.Create] at h
    by_cases hu : url = ""
    · simp only [hu, if_true, Prod.mk.injEq] at h
      rw [← h.2]
    · rw [if_neg hu] at h
      simp only [Backend.recordOf, memCreateLoop_error g url now _ s e s' h]
  | Persistent =>
    simp only [Create, PgStore.Create] at h
    by_cases hu : url = ""
    · simp only [hu, if_true, Prod.mk.injEq] at h
      rw [← h.2]
    · rw [if_neg hu] at h
      simp only [Backend.recordOf, pgCreateLoop_error g url now _ s e s' h]

theorem Resolve_none (b : Backend) (s : b.State) (c : String) (h : b.recordOf s c = none) :
    Resolve b s c = (Except.error StoreError.NotFound, s) := by
  cases b with
  | Memory =>
    simp only [Backend.recordOf] at h
    simp only [Resolve, MemStore.Resolve, h]
  | Persistent =>
    simp only [Backend.recordOf] at h
    simp only [Resolve, PgStore.Resolve, Table.incrementAndFetch, h]

theorem Resolve_some (b : Backend) (s : b.State) (c : String) (r : ShortURLRecord)
    (h : b.recordOf s c = some r) :
    (Resolve b s c).1 = Except.ok r.originalURL
    ∧ b.recordOf (Resolve b s c).2 c = some { r with hitCount := r.hitCount + 1 }
    ∧ ∀ c', c' ≠ c → b.recordOf (Resolve b s c).2 c' = b.recordOf s c' := by
  cases b with
  | Memory =>
    simp only [Backend.recordOf] at h
    refine ⟨?_, ?_, ?_⟩
    · simp only [Resolve, MemStore.Resolve, h]
    · simp only [Resolve, MemStore.Resolve, h, Backend.recordOf, Function.update_same]
    · intro c' hc'
      simp only [Resolve, MemStore.Resolve, h, Backend.recordOf, Function.update_noteq hc']
  | Persistent =>
    simp only [Backend.recordOf] at h
    have hrc : r.code = c := by simpa using List.find?_some h
    refine ⟨?_, ?_, ?_⟩
    · simp only [Resolve, PgStore.Resolve, Table.incrementAndFetch, h]
    · simp only [Resolve, PgStore.Resolve, Table.incrementAndFetch, h, Backend.recordOf,
        tableFind_increment, Option.map_some', if_pos hrc]
    · intro c' hc'
      simp only [Resolve, PgStore.Resolve, Table.incrementAndFetch, h, Backend.recordOf,
        tableFind_increment]
      cases hf : List.find? (fun r => decide (r.code = c')) (PgStore.rows s) with
      | none => rfl
      | some r' =>
        have hrc' : r'.code = c' := by simpa using List.find?_some hf
        have hne : ¬ r'.code = c := fun e => hc' (hrc'.symm.trans e)
        simp only [Option.map_some', if_neg hne]

theorem Stats_eq (b : Backend) (s : b.State) (c : String) :
    Stats b s c =
      (match b.recordOf s c with
        | none => Except.error StoreError.NotFound
        | some r => Except.ok r.hitCount, s) := by
  cases b with
  | Memory =>
    simp only [Stats, MemStore.Stats, Backend.recordOf]
    cases MemStore.records s c <;> rfl
  | Persistent =>
    simp only [Stats, PgStore.Stats, Backend.recordOf]
    cases List.find? (fun r => decide (r.code = c)) (PgStore.rows s) <;> rfl

theorem resolveTimes_record (b : Backend) (c : String) :
    ∀ (n : Nat) (s : b.State) (r : ShortURLRecord), b.recordOf s c = some r →
      b.recordOf (resolveTimes b c n s) c = some { r with hitCount := r.hitCount + n } := by
  intro n
  induction n with
  | zero =>
    intro s r h
    simpa [resolveTimes] using h
  | succ n ih =>
    intro s r h
    have h2 := ih (Resolve b s c).2 _ (Resolve_some b s c r h).2.1
    simp only [resolveTimes, h2, ShortURLRecord.mk.injEq, Option.some.injEq, true_and, and_true]
    omega

theorem run_records (g : Generator) (b : Backend) :
    ∀ (ops : List Op) (s : b.State) (c : String),
      b.recordOf (run g b ops s).1 c ≠ none →
      b.recordOf s c ≠ none ∨ c ∈ (run g b ops s).2 := by
  intro ops
  induction ops with
  | nil =>
    intro s c h
    exact Or.inl h
  | cons op ops ih =>
    intro s c h
    cases op with
    | Create url now =>
      cases hC : Create g b s url now with
      | mk res s1 =>
        cases res with
        | ok code =>
          simp only [run, hC] at h ⊢
          rcases ih s1 c h with h1 | h1
          · by_cases hc : c = code
            · exact Or.inr (by simp [hc])
            · rw [(Create_ok g b s url now code s1 hC).2.2.2 c hc] at h1
              exact Or.inl h1
          · exact Or.inr (List.mem_cons_of_mem _ h1)
        | error e =>
          simp only [run, hC] at h ⊢
          rcases ih s1 c h with h1 | h1
          · rw [Create_error g b s url now e s1 hC c] at h1
            exact Or.inl h1
          · exact Or.inr h1
    | Resolve code =>
      simp only [run] at h ⊢
      rcases ih _ c h with h1 | h1
      · left
        cases hr : b.recordOf s code with
        | none =>
          rw [Resolve_none b s code hr] at h1
          exact h1
        | some r =>
          by_cases hc : c = code
          · rw [hc, hr]
            exact Option.some_ne_none r
          · rw [(Resolve_some b s code r hr).2.2 c hc] at h1
            exact h1
      · exact Or.inr h1
    | Stats code =>
      simp only [run] at h ⊢
      rcases ih _ c h with h1 | h1
      · rw [Stats_eq] at h1
        exact Or.inl h1
      · exact Or.inr h1

theorem empty_records (b : Backend) (c : String) : b.recordOf b.empty c = none := by
  cases b <;> rfl

end store

namespace store

/-! ### The testable properties of the URL store -/

/-- C3: round trip of the URL store, on either backend: when `Create` of an
original URL succeeds with the code `c` (which it only does for a non-empty
URL), `Resolve c` on the resulting store succeeds and returns exactly that
original URL. -/
theorem create_resolve_roundtrip (g : Generator) (b : Backend) (s : b.State) (originalURL : String)
    (now : Nat) (c : String) (s' : b.State)
    (h : Create g b s originalURL now = (Except.ok c, s')) :
    originalURL ≠ "" ∧ (Resolve b s' c).1 = Except.ok originalURL := by
  obtain ⟨hu, _, hrec, _⟩ := Create_ok g b s originalURL now c s' h
  exact ⟨hu, (Resolve_some b s' c _ hrec).1⟩

/-- Witness of C3: on the empty persistent store the first `Create` returns the
code "0", which resolves to the URL created. -/
theorem create_resolve_roundtrip_witness :
    Create counterGenerator Backend.Persistent NewPgStore "https://example.com/a" 7
      = (Except.ok "0",
          { rows := [⟨"0", "https://example.com/a", 0, 7⟩], draws := 1 })
    ∧ (Resolve Backend.Persistent
          ({ rows := [⟨"0", "https://example.com/a", 0, 7⟩], draws := 1 } : PgStore) "0").1
        = Except.ok "https://example.com/a" :=
  ⟨rfl, (create_resolve_roundtrip counterGenerator Backend.Persistent NewPgStore
      "https://example.com/a" 7 "0" { rows := [⟨"0", "https://example.com/a", 0, 7⟩], draws := 1 }
      rfl).2⟩

/-- C4: hit counting of the URL store, on either backend: the record made by a
successful `Create` has hit count 0; a successful `Resolve c` adds exactly 1 to
the hit count of `c` and changes no other record; `Stats c` returns the current
count and leaves the store as it is; so after `Create` returns `c`, `n`
`Resolve c` calls in a row all return the URL and `Stats c` is then `n`, 1 after
the first and 2 after the second. -/
theorem hit_counting (g : Generator) (b : Backend) (s : b.State) (originalURL : String)
    (now : Nat) (c : String) (s' : b.State)
    (h : Create g b s originalURL now = (Except.ok c, s')) :
    b.recordOf s' c
        = some { code := c, originalURL := originalURL, hitCount := 0, createdAt := now }
    ∧ Stats b s' c = (Except.ok 0, s')
    ∧ (∀ (t : b.State) (k u : String) (t' : b.State), Resolve b t k = (Except.ok u, t') →
        ∃ r, b.recordOf t k = some r
          ∧ u = r.originalURL
          ∧ b.recordOf t' k = some { r with hitCount := r.hitCount + 1 }
          ∧ (∀ k', k' ≠ k → b.recordOf t' k' = b.recordOf t k')
          ∧ Stats b t k = (Except.ok r.hitCount, t)
          ∧ Stats b t' k = (Except.ok (r.hitCount + 1), t'))
    ∧ (∀ (t : b.State) (k : String),
        (Stats b t k).2 = t
        ∧ (∀ r, b.recordOf t k = some r → (Stats b t k).1 = Except.ok r.hitCount)
        ∧ Stats b (Stats b t k).2 k = Stats b t k)
    ∧ (∀ n : Nat,
        Stats b (resolveTimes b c n s') c = (Except.ok n, resolveTimes b c n s')
        ∧ (Resolve b (resolveTimes b c n s') c).1 = Except.ok originalURL)
    ∧ Stats b (Resolve b s' c).2 c = (Except.ok 1, (Resolve b s' c).2)
    ∧ Stats b (Resolve b (Resolve b s' c).2 c).2 c
        = (Except.ok 2, (Resolve b (Resolve b s' c).2 c).2) := by
  obtain ⟨_, _, hrec, _⟩ := Create_ok g b s originalURL now c s' h
  have hn : ∀ n : Nat,
      Stats b (resolveTimes b c n s') c = (Except.ok n, resolveTimes b c n s')
      ∧ (Resolve b (resolveTimes b c n s') c).1 = Except.ok originalURL := by
    intro n
    have hr := resolveTimes_record b c n s' _ hrec
    refine ⟨?_, ?_⟩
    · rw [Stats_eq, hr]
      simp
    · exact (Resolve_some b _ c _ hr).1
  refine ⟨hrec, ?_, ?_, ?_, hn, (hn 1).1, (hn 2).1⟩
  · rw [Stats_eq, hrec]
  · intro t k u t' hres
    cases hr : b.recordOf t k with
    | none =>
      rw [Resolve_none b t k hr] at hres
      simp at hres
    | some r =>
      obtain ⟨h1, h2, h3⟩ := Resolve_some b t k r hr
      rw [hres] at h1 h2 h3
      simp only [Except.ok.injEq] at h1
      refine ⟨r, rfl, h1, h2, h3, ?_, ?_⟩
      · rw [Stats_eq, hr]
      · rw [Stats_eq, h2]
  · intro t k
    refine ⟨?_, ?_, ?_⟩
    · rw [Stats_eq]
    · intro r hr
      rw [Stats_eq, hr]
    · have h2 : (Stats b t k).2 = t := by rw [Stats_eq]
      rw [h2]

/-- Witness of C4: on the empty persistent store, `Create` of
"https://example.com/a" returns "0", and `Stats` after one `Resolve` is 1. -/
theorem hit_counting_witness :
    (Stats Backend.Persistent
        (Resolve Backend.Persistent
          ({ rows := [⟨"0", "https://example.com/a", 0, 7⟩], draws := 1 } : PgStore) "0").2 "0").1
      = Except.ok 1 :=
  congrArg Prod.fst
    (hit_counting counterGenerator Backend.Persistent NewPgStore "https://example.com/a" 7 "0"
      { rows := [⟨"0", "https://example.com/a", 0, 7⟩], draws := 1 } rfl).2.2.2.2.2.1

/-- C5: lookup miss of the URL store, on either backend: after any history of
calls on the empty store, for a code that none of its `Create` calls returned,
`Resolve` and `Stats` both fail with `NotFound` and leave the store as it is;
so do they for "doesnotexist" on the empty store. -/
theorem lookup_miss (g : Generator) (b : Backend) (ops : List Op) (code : String)
    (h : code ∉ (run g b ops b.empty).2) :
    Resolve b (run g b ops b.empty).1 code
        = (Except.error StoreError.NotFound, (run g b ops b.empty).1)
    ∧ Stats b (run g b ops b.empty).1 code
        = (Except.error StoreError.NotFound, (run g b ops b.empty).1)
    ∧ Resolve b b.empty "doesnotexist" = (Except.error StoreError.NotFound, b.empty)
    ∧ Stats b b.empty "doesnotexist" = (Except.error StoreError.NotFound, b.empty) := by
  have hnone : b.recordOf (run g b ops b.empty).1 code = none := by
    by_contra hne
    rcases run_records g b ops b.empty code hne with h1 | h1
    · exact h1 (empty_records b code)
    · exact h h1
  refine ⟨Resolve_none b _ code hnone, ?_, Resolve_none b _ _ (empty_records b _), ?_⟩
  · rw [Stats_eq, hnone]
  · rw [Stats_eq, empty_records]

/-- Witness of C5: after one `Create` on the empty persistent store, which
returns "0", the code "doesnotexist" is not found. -/
theorem lookup_miss_witness :
    (run counterGenerator Backend.Persistent [Op.Create "https://example.com/a" 7]
        Backend.Persistent.empty).2 = ["0"]
    ∧ (Resolve Backend.Persistent
        (run counterGenerator Backend.Persistent [Op.Create "https://example.com/a" 7]
          Backend.Persistent.empty).1 "doesnotexist").1
      = Except.error StoreError.NotFound :=
  ⟨rfl, congrArg Prod.fst
    (lookup_miss counterGenerator Backend.Persistent [Op.Create "https://example.com/a" 7]
      "doesnotexist" (by decide)).1⟩

end store

namespace openapi

theorem paramSegment_pe (ps : Nat) (rest : List Nat) (seg : Segment)
    (h : paramSegment ps rest = some seg) : 1 ≤ seg.pe := by
  unfold paramSegment at h
  cases hc : closingBrace rest 0 0 with
  | none => simp [hc] at h
  | some i =>
    simp only [hc] at h
    by_cases hi : i = 0
    · simp [hi] at h
    · rw [if_neg hi] at h
      cases hk : IndexByte (List.drop 1 (List.take i rest)) 58 with
      | none =>
        simp only [hk, Option.some.injEq] at h
        subst h
        simp
      | some idx =>
        simp only [hk, Option.some.injEq] at h
        subst h
        simp

theorem IndexByte_some_ne_nil (c : Nat) (p : List Nat) (i : Nat) (h : IndexByte p c = some i) :
    p ≠ [] := by
  intro e
  subst e
  simp [IndexByte] at h

theorem patNextSegment_pe (p : List Nat) (seg : Segment) (h : patNextSegment p = some seg)
    (hs : seg.typ ≠ nodeTyp.ntStatic) : 1 ≤ seg.pe ∧ p ≠ [] := by
  unfold patNextSegment at h
  cases h123 : IndexByte p 123 with
  | none =>
    cases h42 : IndexByte p 42 with
    | none =>
      simp only [h123, h42, Option.some.injEq] at h
      subst h
      simp at hs
    | some ws =>
      have hne := IndexByte_some_ne_nil 42 p ws h42
      simp only [h123, h42] at h
      split at h
      · simp at h
      · simp only [Option.some.injEq] at h
        subst h
        exact ⟨List.length_pos.mpr hne, hne⟩
  | some ps =>
    simp only [h123] at h
    split at h
    · simp at h
    · exact ⟨paramSegment_pe _ _ _ h, IndexByte_some_ne_nil 123 p ps h123⟩

theorem patSegments_fuel : ∀ (fuel : Nat) (p : List Nat), p.length < fuel →
    patSegments fuel p = patSegments (p.length + 1) p := by
  intro fuel
  induction fuel using Nat.strong_induction_on with
  | _ fuel ih =>
    intro p hp
    cases fuel with
    | zero => omega
    | succ f =>
      rw [patSegments, patSegments]
      cases hseg : patNextSegment p with
      | none => rfl
      | some seg =>
        by_cases hs : seg.typ = nodeTyp.ntStatic
        · simp only [hs, if_true]
        · simp only [hs, if_false]
          obtain ⟨hpe, hne⟩ := patNextSegment_pe p seg hseg hs
          have hlen : 0 < p.length := List.length_pos.mpr hne
          have hd : (p.drop seg.pe).length < p.length := by
            rw [List.length_drop]
            omega
          rw [ih f (by omega) (p.drop seg.pe) (by omega),
            ih p.length (by omega) (p.drop seg.pe) hd]

end openapi
